import Mathlib

/-!
Verification of `samcli/commands/local/lib/swagger/parser.py` (SwaggerParser).

The Swagger document is a JSON-like tree, modelled as a tagged union `Value`.
Python dynamic behaviour is modelled explicitly:
  * truthiness (`truthy`),
  * `d.get(k, default)` (raises AttributeError on non-dicts: `dictGetD`),
  * `d[k]` (raises KeyError on a missing key, TypeError on non-dicts:
    `pySubscript`),
  * `d.items()` (raises AttributeError on non-dicts: `pyItems`),
  * `for x in v` (iterating a dict yields its keys, a string its characters,
    everything else raises TypeError: `pyIter`).
Raised exceptions are modelled as `Except.error ()`; since the result type is
`Except Unit (List Route)`, an error discards every route accumulated so far,
exactly as a Python exception unwinds out of `get_routes`.

The external collaborators (`LambdaUri.get_function_name`, the
`IntegrationType`/`AuthorizerType` enumerations, the `Route` record) live
outside this file's source; the resolver is a parameter `resolve` of every
function that the source lets call it, and the type tags / the record are
modelled from the spec below.
-/

/-- A JSON-like document tree value: the shallow embedding of the Python
values the parser traverses (dict, list, str, int, bool, None). -/
inductive Value where
  | vnull : Value
  | vbool : Bool → Value
  | vnum : Int → Value
  | vstr : String → Value
  | vseq : List Value → Value
  | vmap : List (String × Value) → Value
deriving Repr

/-- First-match association-list lookup: the model of Python dict key lookup
(Python dicts cannot hold a duplicated key, so first match is the match). -/
def lookupKey : List (String × Value) → String → Option Value
  | [], _ => none
  | (k, v) :: rest, key => if k = key then some v else lookupKey rest key

/-- Python truthiness of a `Value`. -/
def truthy : Value → Bool
  | Value.vnull => false
  | Value.vbool b => b
  | Value.vnum n => n != 0
  | Value.vstr s => s != ""
  | Value.vseq l => !l.isEmpty
  | Value.vmap m => !m.isEmpty

/-- `v.get(key, default)`: returns the entry, else the default; raises
(AttributeError) when `v` is not a dict. -/
def dictGetD (v : Value) (key : String) (dflt : Value) : Except Unit Value :=
  match v with
  | Value.vmap m => Except.ok ((lookupKey m key).getD dflt)
  | _ => Except.error ()

/-- `v.get(key)` where `v` is already known to be a dict: `None` (here
`vnull`) when the key is absent. Total, never raises. -/
def mapGet (m : List (String × Value)) (key : String) : Value :=
  (lookupKey m key).getD Value.vnull

/-- `v[key]`: raises KeyError when the key is absent, TypeError when `v` is
not subscriptable by a string. -/
def pySubscript (v : Value) (key : String) : Except Unit Value :=
  match v with
  | Value.vmap m =>
    match lookupKey m key with
    | some x => Except.ok x
    | none => Except.error ()
  | _ => Except.error ()

/-- `v.items()`: the dict's entries; raises (AttributeError) otherwise. -/
def pyItems (v : Value) : Except Unit (List (String × Value)) :=
  match v with
  | Value.vmap m => Except.ok m
  | _ => Except.error ()

/-- `for x in v`: a list yields its elements, a dict its keys, a string its
one-character substrings; anything else raises TypeError. -/
def pyIter (v : Value) : Except Unit (List Value) :=
  match v with
  | Value.vseq l => Except.ok l
  | Value.vmap m => Except.ok (m.map (fun p => Value.vstr p.1))
  | Value.vstr s => Except.ok (s.data.map (fun c => Value.vstr (String.mk [c])))
  | _ => Except.error ()

/-- Python `s.lower()` on the ASCII strings the parser compares (the
vendor-extension keys are ASCII): lowercase every character. -/
def lowerStr (s : String) : String :=
  String.mk (s.data.map Char.toLower)

/-- Python `v == s` against a string literal: true exactly when `v` is an
equal string (no cross-type equality). -/
def pyEqStr (v : Value) (s : String) : Bool :=
  match v with
  | Value.vstr t => t == s
  | _ => false

/-- Effectful map over a list in `Except Unit`, stopping at the first raised
exception: the model of a Python comprehension whose body may raise. -/
def mapExcept {α β : Type} (f : α → Except Unit β) : List α → Except Unit (List β)
  | [] => Except.ok []
  | a :: l => do
    let b ← f a
    let bs ← mapExcept f l
    pure (b :: bs)

/-! ## Constants of `SwaggerParser` and the external type tags -/

/-- `SwaggerParser._INTEGRATION_KEY`. -/
def INTEGRATION_KEY : String := "x-amazon-apigateway-integration"

/-- `SwaggerParser._AUTHORIZER_KEY`. -/
def AUTHORIZER_KEY : String := "x-amazon-apigateway-authorizer"

/-- `SwaggerParser._ANY_METHOD_EXTENSION_KEY`. -/
def ANY_METHOD_EXTENSION_KEY : String := "x-amazon-apigateway-any-method"

/-- `SwaggerParser._BINARY_MEDIA_TYPES_EXTENSION_KEY`. -/
def BINARY_MEDIA_TYPES_EXTENSION_KEY : String := "x-amazon-apigateway-binary-media-types"

/-- `SwaggerParser._ANY_METHOD`. -/
def ANY_METHOD : String := "ANY"

/-- Modelled from the spec: the proxy-function integration type tag
(`IntegrationType.aws_proxy.value`), an opaque string constant supplied by an
external enumeration not part of this source file. -/
def AWS_PROXY_VALUE : String := "aws_proxy"

/-- Modelled from the spec: the token-authorizer type tag
(`AuthorizerType.token.value`), an opaque external string constant. -/
def TOKEN_VALUE : String := "token"

/-- Modelled from the spec: the request-authorizer type tag
(`AuthorizerType.request.value`), an opaque external string constant. -/
def REQUEST_VALUE : String := "request"

/-- Modelled from the spec: the `Route` record produced for the dispatch
layer — function identifier, path, methods list, event type tag, optional
payload format version, ordered list of per-security-entry authorizer
mappings (scheme name → resolved identifier or `None`). -/
structure Route where
  function_name : String
  path : String
  methods : List String
  event_type : String
  payload_format_version : Option Value
  authorizers : List (List (String × Option String))
deriving Repr

/-! ## The parser, translated from `parser.py` -/

/-- `SwaggerParser.__init__`: the held document is `swagger or {}`. -/
def mkSwagger (swagger : Value) : Value :=
  if truthy swagger then swagger else Value.vmap []

/-- `SwaggerParser.get_binary_media_types`:
`return self.swagger.get(self._BINARY_MEDIA_TYPES_EXTENSION_KEY) or []`. -/
def get_binary_media_types (swagger : Value) : Except Unit Value := do
  let v ← dictGetD swagger BINARY_MEDIA_TYPES_EXTENSION_KEY Value.vnull
  pure (if truthy v then v else Value.vseq [])

/-- `SwaggerParser._get_integration`: the integration dict under the
vendor-extension key, only when it is a truthy dict whose `type` equals the
proxy tag; `None` for every other shape. Total — never raises. -/
def get_integration (method_config : Value) : Option (List (String × Value)) :=
  match method_config with
  | Value.vmap m =>
    match lookupKey m INTEGRATION_KEY with
    | none => none
    | some integration =>
      match integration with
      | Value.vmap im =>
        if truthy (Value.vmap im) && pyEqStr (mapGet im "type") AWS_PROXY_VALUE
        then some im
        else none
      | _ => none
  | _ => none

/-- `SwaggerParser._get_integration_function_name`: delegate the
integration's `uri` to the external resolver; `None` when no integration. -/
def get_integration_function_name (resolve : Value → Option String)
    (method_config : Value) : Option String :=
  match get_integration method_config with
  | none => none
  | some im => resolve (mapGet im "uri")

/-- `SwaggerParser._get_payload_format_version`: the integration's
`payloadFormatVersion` field, `None` when no integration. -/
def get_payload_format_version (method_config : Value) : Option Value :=
  match get_integration method_config with
  | none => none
  | some im => some (mapGet im "payloadFormatVersion")

/-- `SwaggerParser._get_authorizer_function_name`: resolve the authorizer's
`authorizerUri` only when the scheme config is a dict holding, under the
authorizer vendor-extension key, a truthy dict of type token or request;
`None` for every other shape. Total — never raises. -/
def get_authorizer_function_name (resolve : Value → Option String)
    (scheme_config : Value) : Option String :=
  match scheme_config with
  | Value.vmap m =>
    match lookupKey m AUTHORIZER_KEY with
    | none => none
    | some authorizer =>
      match authorizer with
      | Value.vmap am =>
        if truthy (Value.vmap am) &&
            (pyEqStr (mapGet am "type") TOKEN_VALUE
              || pyEqStr (mapGet am "type") REQUEST_VALUE)
        then resolve (mapGet am "authorizerUri")
        else none
      | _ => none
  | _ => none

/-- Truthiness of the resolved function name (`if not function_name`):
`None` and the empty string are falsy. -/
def fnTruthy : Option String → Bool
  | none => false
  | some s => s != ""

/-- The `authorizers` list comprehension of `get_routes` (lines 80–83 of the
source): one scheme-name → resolved-identifier mapping per entry of the
method's `security` sequence, in order; `security_dict[name]` raises
KeyError on an unknown scheme name. -/
def authorizersOf (resolve : Value → Option String) (security_dict : Value)
    (method_config : Value) : Except Unit (List (List (String × Option String))) := do
  let secVal ← dictGetD method_config "security" (Value.vseq [])
  let auths ← pyIter secVal
  mapExcept
    (fun auth => do
      let items ← pyItems auth
      mapExcept
        (fun p => do
          let sc ← pySubscript security_dict p.1
          pure (p.1, get_authorizer_function_name resolve sc))
        items)
    auths

/-- The `Route(...)` constructor call of lines 97–104 of the source: method
key normalized to `ANY` when it case-insensitively equals the any-method
extension key (the key is lowercase, so `method.lower() == key` is that
comparison). -/
def emittedRoute (resolve : Value → Option String)
    (event_type full_path method : String) (method_config : Value)
    (authorizers : List (List (String × Option String))) : Route :=
  { function_name := (get_integration_function_name resolve method_config).getD ""
    path := full_path
    methods := [if lowerStr method = ANY_METHOD_EXTENSION_KEY then ANY_METHOD else method]
    event_type := event_type
    payload_format_version := get_payload_format_version method_config
    authorizers := authorizers }

/-- The body of the inner `for method, method_config` loop of `get_routes`:
`[]` models `continue`, a singleton models appending one `Route`, and an
error models an exception unwinding out of the whole call. Mirrors the
source order: the integration function name and the authorizers are computed
before the `if not function_name: continue` test. -/
def processMethod (resolve : Value → Option String) (security_dict : Value)
    (event_type full_path method : String) (method_config : Value) :
    Except Unit (List Route) := do
  let function_name := get_integration_function_name resolve method_config
  let authorizers ← authorizersOf resolve security_dict method_config
  if fnTruthy function_name then
    pure [emittedRoute resolve event_type full_path method method_config authorizers]
  else
    pure []

/-- The inner loop of `get_routes` over a path's `(method, method_config)`
entries, in the dict's iteration order. -/
def routesOfMethods (resolve : Value → Option String) (security_dict : Value)
    (event_type full_path : String) :
    List (String × Value) → Except Unit (List Route)
  | [] => Except.ok []
  | (method, method_config) :: rest => do
    let r ← processMethod resolve security_dict event_type full_path method method_config
    let rs ← routesOfMethods resolve security_dict event_type full_path rest
    pure (r ++ rs)

/-- The outer loop of `get_routes` over the `(full_path, path_config)`
entries of the `paths` dict; `path_config.items()` raises on a non-dict. -/
def routesOfPaths (resolve : Value → Option String) (security_dict : Value)
    (event_type : String) :
    List (String × Value) → Except Unit (List Route)
  | [] => Except.ok []
  | (full_path, path_config) :: rest => do
    let mitems ← pyItems path_config
    let r ← routesOfMethods resolve security_dict event_type full_path mitems
    let rs ← routesOfPaths resolve security_dict event_type rest
    pure (r ++ rs)

/-- Lines 72–73 of the source: `components_dict = self.swagger.get("components", {})`
then `security_dict = components_dict.get("securitySchemes", {})`. -/
def securityDictOf (swagger : Value) : Except Unit Value := do
  let components_dict ← dictGetD swagger "components" (Value.vmap [])
  dictGetD components_dict "securitySchemes" (Value.vmap [])

/-- `SwaggerParser.get_routes`: walk every path/method entry and collect the
emitted `Route`s; any raised exception aborts the whole call with no
partial result. -/
def get_routes (resolve : Value → Option String) (swagger : Value)
    (event_type : String) : Except Unit (List Route) := do
  let paths_dict ← dictGetD swagger "paths" (Value.vmap [])
  let security_dict ← securityDictOf swagger
  let pitems ← pyItems paths_dict
  routesOfPaths resolve security_dict event_type pitems

/-! ## Helper lemmas -/

/-- A Python comprehension raises as soon as one element's body raises. -/
theorem mapExcept_error {α β : Type} {f : α → Except Unit β} {l : List α} {a : α}
    (ha : a ∈ l) (hf : f a = Except.error ()) : mapExcept f l = Except.error () := by
  induction l with
  | nil => cases ha
  | cons b l ih =>
    rcases List.mem_cons.mp ha with h | h
    · subst h
      simp [mapExcept, hf, Bind.bind, Except.bind]
    · cases hb : f b with
      | error e => cases e; simp [mapExcept, hb, Bind.bind, Except.bind]
      | ok x => simp [mapExcept, hb, Bind.bind, Except.bind, Pure.pure, ih h]

/-- A Python comprehension whose body never raises is a plain map. -/
theorem mapExcept_ok_of_forall {α β : Type} {f : α → Except Unit β} {g : α → β}
    {l : List α} (h : ∀ a ∈ l, f a = Except.ok (g a)) :
    mapExcept f l = Except.ok (l.map g) := by
  induction l with
  | nil => rfl
  | cons b l ih =>
    have hb := h b (List.mem_cons_self b l)
    simp [mapExcept, hb, Bind.bind, Except.bind, Pure.pure, Except.pure,
      ih (fun a ha => h a (List.mem_cons_of_mem b ha))]

/-- `pyEqStr (mapGet m k) s` holds exactly when key `k` maps to string `s`. -/
theorem pyEqStr_mapGet {m : List (String × Value)} {k s : String} :
    pyEqStr (mapGet m k) s = true ↔ lookupKey m k = some (Value.vstr s) := by
  unfold mapGet
  cases h : lookupKey m k with
  | none => simp [pyEqStr]
  | some v => cases v <;> simp [pyEqStr]

/-- `processMethod` is the `authorizers` computation followed by the
emit-or-skip decision on the resolved function name. -/
theorem processMethod_char (resolve : Value → Option String) (security_dict : Value)
    (event_type full_path method : String) (method_config : Value) :
    processMethod resolve security_dict event_type full_path method method_config =
      Except.map
        (fun authorizers =>
          if fnTruthy (get_integration_function_name resolve method_config)
          then [emittedRoute resolve event_type full_path method method_config authorizers]
          else [])
        (authorizersOf resolve security_dict method_config) := by
  cases h : authorizersOf resolve security_dict method_config with
  | error e => simp [processMethod, h, Except.map, Bind.bind, Except.bind]
  | ok auths =>
    by_cases hf : fnTruthy (get_integration_function_name resolve method_config) <;>
      simp [processMethod, h, hf, Except.map, Bind.bind, Except.bind, Pure.pure, Except.pure]

/-- An exception in one method entry's processing unwinds out of the whole
inner loop. -/
theorem routesOfMethods_error {resolve : Value → Option String} {sd : Value}
    {et fp : String} {l : List (String × Value)} {m : String} {mc : Value}
    (hm : (m, mc) ∈ l)
    (he : processMethod resolve sd et fp m mc = Except.error ()) :
    routesOfMethods resolve sd et fp l = Except.error () := by
  induction l with
  | nil => cases hm
  | cons b l ih =>
    obtain ⟨m1, mc1⟩ := b
    rcases List.mem_cons.mp hm with h | h
    · rw [Prod.mk.injEq] at h
      obtain ⟨h1, h2⟩ := h
      subst h1; subst h2
      simp [routesOfMethods, he, Bind.bind, Except.bind]
    · cases hb : processMethod resolve sd et fp m1 mc1 with
      | error e => cases e; simp [routesOfMethods, hb, Bind.bind, Except.bind]
      | ok x => simp [routesOfMethods, hb, Bind.bind, Except.bind, ih h]

/-- An exception in one path's inner loop unwinds out of the outer loop. -/
theorem routesOfPaths_error {resolve : Value → Option String} {sd : Value}
    {et : String} {l : List (String × Value)} {fp : String}
    {pc : List (String × Value)}
    (hm : (fp, Value.vmap pc) ∈ l)
    (he : routesOfMethods resolve sd et fp pc = Except.error ()) :
    routesOfPaths resolve sd et l = Except.error () := by
  induction l with
  | nil => cases hm
  | cons b l ih =>
    obtain ⟨fp1, pcv1⟩ := b
    rcases List.mem_cons.mp hm with h | h
    · rw [Prod.mk.injEq] at h
      obtain ⟨h1, h2⟩ := h
      subst h1; subst h2
      simp [routesOfPaths, pyItems, he, Bind.bind, Except.bind]
    · cases hi : pyItems pcv1 with
      | error e => cases e; simp [routesOfPaths, hi, Bind.bind, Except.bind]
      | ok mi =>
        cases hb : routesOfMethods resolve sd et fp1 mi with
        | error e => cases e; simp [routesOfPaths, hi, hb, Bind.bind, Except.bind]
        | ok x => simp [routesOfPaths, hi, hb, Bind.bind, Except.bind, ih h]

/-- Every route produced by the inner loop comes from some method entry of
the list, via a successful `processMethod`. -/
theorem routesOfMethods_ok_mem {resolve : Value → Option String} {sd : Value}
    {et fp : String} {l : List (String × Value)} {rs : List Route} {rt : Route}
    (hok : routesOfMethods resolve sd et fp l = Except.ok rs) (hrt : rt ∈ rs) :
    ∃ m mc lr, (m, mc) ∈ l ∧
      processMethod resolve sd et fp m mc = Except.ok lr ∧ rt ∈ lr := by
  induction l generalizing rs with
  | nil =>
    simp [routesOfMethods] at hok
    subst hok; cases hrt
  | cons b l ih =>
    obtain ⟨m1, mc1⟩ := b
    cases hb : processMethod resolve sd et fp m1 mc1 with
    | error e =>
      cases e; rw [routesOfMethods] at hok
      simp [hb, Bind.bind, Except.bind] at hok
    | ok r1 =>
      cases hrest : routesOfMethods resolve sd et fp l with
      | error e =>
        cases e; rw [routesOfMethods] at hok
        simp [hb, hrest, Bind.bind, Except.bind] at hok
      | ok rs1 =>
        rw [routesOfMethods] at hok
        simp [hb, hrest, Bind.bind, Except.bind, Pure.pure, Except.pure] at hok
        subst hok
        rcases List.mem_append.mp hrt with h | h
        · exact ⟨m1, mc1, r1, List.mem_cons_self _ _, hb, h⟩
        · obtain ⟨m, mc, lr, hmem, hpm, hin⟩ := ih hrest h
          exact ⟨m, mc, lr, List.mem_cons_of_mem _ hmem, hpm, hin⟩

/-- Every route produced by the outer loop comes from some path entry whose
config iterates, via the inner loop. -/
theorem routesOfPaths_ok_mem {resolve : Value → Option String} {sd : Value}
    {et : String} {l : List (String × Value)} {rs : List Route} {rt : Route}
    (hok : routesOfPaths resolve sd et l = Except.ok rs) (hrt : rt ∈ rs) :
    ∃ fp pcv mi lr, (fp, pcv) ∈ l ∧ pyItems pcv = Except.ok mi ∧
      routesOfMethods resolve sd et fp mi = Except.ok lr ∧ rt ∈ lr := by
  induction l generalizing rs with
  | nil =>
    simp [routesOfPaths] at hok
    subst hok; cases hrt
  | cons b l ih =>
    obtain ⟨fp1, pcv1⟩ := b
    cases hi : pyItems pcv1 with
    | error e =>
      cases e; rw [routesOfPaths] at hok
      simp [hi, Bind.bind, Except.bind] at hok
    | ok mi1 =>
      cases hb : routesOfMethods resolve sd et fp1 mi1 with
      | error e =>
        cases e; rw [routesOfPaths] at hok
        simp [hi, hb, Bind.bind, Except.bind] at hok
      | ok r1 =>
        cases hrest : routesOfPaths resolve sd et l with
        | error e =>
          cases e; rw [routesOfPaths] at hok
          simp [hi, hb, hrest, Bind.bind, Except.bind] at hok
        | ok rs1 =>
          rw [routesOfPaths] at hok
          simp [hi, hb, hrest, Bind.bind, Except.bind, Pure.pure, Except.pure] at hok
          subst hok
          rcases List.mem_append.mp hrt with h | h
          · exact ⟨fp1, pcv1, mi1, r1, List.mem_cons_self _ _, hi, hb, h⟩
          · obtain ⟨fp, pcv, mi, lr, hmem, hit, hrm, hin⟩ := ih hrest h
            exact ⟨fp, pcv, mi, lr, List.mem_cons_of_mem _ hmem, hit, hrm, hin⟩

/-- Unfolding `get_routes` when the document decomposes well. -/
theorem get_routes_eq {resolve : Value → Option String} {sw : List (String × Value)}
    {et : String} {ps sd : List (String × Value)}
    (hpaths : lookupKey sw "paths" = some (Value.vmap ps))
    (hsd : securityDictOf (Value.vmap sw) = Except.ok (Value.vmap sd)) :
    get_routes resolve (Value.vmap sw) et =
      routesOfPaths resolve (Value.vmap sd) et ps := by
  simp [get_routes, dictGetD, hpaths, hsd, pyItems, Bind.bind, Except.bind]

/-- Every route returned by `get_routes` comes from some path/method entry
via a successful `processMethod`. -/
theorem get_routes_ok_mem {resolve : Value → Option String} {swagger : Value}
    {et : String} {rs : List Route} {rt : Route}
    (hok : get_routes resolve swagger et = Except.ok rs) (hrt : rt ∈ rs) :
    ∃ sd fp m mc lr,
      processMethod resolve sd et fp m mc = Except.ok lr ∧ rt ∈ lr := by
  rw [get_routes] at hok
  cases h1 : dictGetD swagger "paths" (Value.vmap []) with
  | error e => cases e; simp [h1, Bind.bind, Except.bind] at hok
  | ok paths_dict =>
    cases h2 : securityDictOf swagger with
    | error e => cases e; simp [h1, h2, Bind.bind, Except.bind] at hok
    | ok sd =>
      cases h3 : pyItems paths_dict with
      | error e => cases e; simp [h1, h2, h3, Bind.bind, Except.bind] at hok
      | ok pitems =>
        simp [h1, h2, h3, Bind.bind, Except.bind] at hok
        obtain ⟨fp, pcv, mi, lr1, _, _, hrm, hin1⟩ := routesOfPaths_ok_mem hok hrt
        obtain ⟨m, mc, lr, _, hpm, hin⟩ := routesOfMethods_ok_mem hrm hin1
        exact ⟨sd, fp, m, mc, lr, hpm, hin⟩

/-- Reduction of a successful bind in `Except Unit`. -/
theorem bind_okE {α β : Type} (a : α) (f : α → Except Unit β) :
    (Except.ok a >>= f : Except Unit β) = f a := rfl

/-- Reduction of a failing bind in `Except Unit`. -/
theorem bind_errE {α β : Type} (f : α → Except Unit β) :
    (Except.error () >>= f : Except Unit β) = Except.error () := rfl

/-- `pure` in `Except Unit` is `Except.ok`. -/
theorem pure_okE {α : Type} (a : α) : (pure a : Except Unit α) = Except.ok a := rfl

/-- The `authorizers` comprehension raises when some security entry names a
scheme absent from the securitySchemes dict. -/
theorem authorizersOf_error {resolve : Value → Option String}
    {sd mcm am : List (String × Value)} {auths : List Value}
    {name : String} {v : Value}
    (hsec : lookupKey mcm "security" = some (Value.vseq auths))
    (hauth : Value.vmap am ∈ auths)
    (hname : (name, v) ∈ am)
    (hmiss : lookupKey sd name = none) :
    authorizersOf resolve (Value.vmap sd) (Value.vmap mcm) = Except.error () := by
  have hinner :
      mapExcept
        (fun p : String × Value => do
          let sc ← pySubscript (Value.vmap sd) p.1
          pure (p.1, get_authorizer_function_name resolve sc))
        am = Except.error () := by
    apply mapExcept_error hname
    simp only [pySubscript, hmiss, bind_errE]
  have houter :
      mapExcept
        (fun auth => do
          let items ← pyItems auth
          mapExcept
            (fun p : String × Value => do
              let sc ← pySubscript (Value.vmap sd) p.1
              pure (p.1, get_authorizer_function_name resolve sc))
            items)
        auths = Except.error () := by
    apply mapExcept_error hauth
    simp only [pyItems, bind_okE]
    exact hinner
  simp only [authorizersOf, dictGetD, hsec, Option.getD_some, bind_okE, pyIter]
  exact houter

/-- The `authorizers` comprehension, when every referenced scheme exists:
one mapping per security entry, in order, each sending the scheme names to
their resolved authorizer identifiers. -/
theorem authorizersOf_ok {resolve : Value → Option String}
    {sd mcm : List (String × Value)} {ams : List (List (String × Value))}
    (hsec : lookupKey mcm "security" = some (Value.vseq (ams.map Value.vmap)))
    (hk : ∀ am ∈ ams, ∀ p ∈ am, (lookupKey sd p.1).isSome) :
    authorizersOf resolve (Value.vmap sd) (Value.vmap mcm) =
      Except.ok (ams.map (fun am => am.map (fun p =>
        (p.1, get_authorizer_function_name resolve (mapGet sd p.1))))) := by
  have houter :
      mapExcept
        (fun auth => do
          let items ← pyItems auth
          mapExcept
            (fun p : String × Value => do
              let sc ← pySubscript (Value.vmap sd) p.1
              pure (p.1, get_authorizer_function_name resolve sc))
            items)
        (ams.map Value.vmap) =
      Except.ok ((ams.map Value.vmap).map (fun a =>
        match a with
        | Value.vmap am => am.map (fun p =>
            (p.1, get_authorizer_function_name resolve (mapGet sd p.1)))
        | _ => [])) := by
    apply mapExcept_ok_of_forall
    intro a ha
    obtain ⟨am, ham, rfl⟩ := List.mem_map.mp ha
    have hinner :
        mapExcept
          (fun p : String × Value => do
            let sc ← pySubscript (Value.vmap sd) p.1
            pure (p.1, get_authorizer_function_name resolve sc))
          am = Except.ok (am.map (fun p =>
            (p.1, get_authorizer_function_name resolve (mapGet sd p.1)))) := by
      apply mapExcept_ok_of_forall
      intro p hp
      obtain ⟨x, hx⟩ := Option.isSome_iff_exists.mp (hk am ham p hp)
      simp only [pySubscript, hx, bind_okE, pure_okE, mapGet, Option.getD_some]
    simp only [pyItems, bind_okE]
    exact hinner
  simp only [authorizersOf, dictGetD, hsec, Option.getD_some, bind_okE, pyIter]
  rw [houter, List.map_map]
  rfl

/-- `Except.map` on a success. -/
theorem map_okE {α β : Type} (f : α → β) (a : α) :
    Except.map f (Except.ok a : Except Unit α) = Except.ok (f a) := rfl

/-- `Except.map` on a failure. -/
theorem map_errE {α β : Type} (f : α → β) :
    Except.map f (Except.error () : Except Unit α) = Except.error () := rfl

/-- A truthy resolved function name is a non-empty string. -/
theorem fnTruthy_getD_ne {o : Option String} (h : fnTruthy o = true) :
    o.getD "" ≠ "" := by
  cases o with
  | none => simp [fnTruthy] at h
  | some s => simp [fnTruthy] at h; simpa using h

/-- No integration means no resolved function name. -/
theorem gifn_none {resolve : Value → Option String} {mc : Value}
    (h : get_integration mc = none) :
    get_integration_function_name resolve mc = none := by
  simp [get_integration_function_name, h]

/-- A successful `processMethod` either emitted the one normalized route (on
a truthy function name) or skipped the entry (`continue`). -/
theorem processMethod_ok_elim {resolve : Value → Option String} {sd : Value}
    {et fp m : String} {mc : Value} {lr : List Route}
    (h : processMethod resolve sd et fp m mc = Except.ok lr) :
    (fnTruthy (get_integration_function_name resolve mc) = true ∧
      ∃ auths, authorizersOf resolve sd mc = Except.ok auths ∧
        lr = [emittedRoute resolve et fp m mc auths])
    ∨ (fnTruthy (get_integration_function_name resolve mc) = false ∧ lr = []) := by
  rw [processMethod_char] at h
  cases ha : authorizersOf resolve sd mc with
  | error e =>
    cases e; rw [ha, map_errE] at h; cases h
  | ok auths =>
    rw [ha, map_okE] at h
    by_cases hf : fnTruthy (get_integration_function_name resolve mc)
    · left
      refine ⟨hf, auths, rfl, ?_⟩
      simp only [hf, if_true] at h
      exact (Except.ok.injEq _ _ |>.mp h).symm
    · right
      refine ⟨Bool.eq_false_iff.mpr hf, ?_⟩
      simp only [hf, if_false] at h
      simp at h
      exact h

/-! ## Claim theorems -/

/-- C1: whenever a method entry's `security` sequence contains an entry
naming a scheme absent from `components.securitySchemes` and that entry is
reached by the iteration, `get_routes` fails as a whole — the error
propagates to the caller (result `Except.error`, which by construction
carries no partial route list). -/
theorem spec_C1 (resolve : Value → Option String) (event_type : String)
    {sw ps sd pc mcm am : List (String × Value)} {auths : List Value}
    {full_path method name : String} {v : Value}
    (hpaths : lookupKey sw "paths" = some (Value.vmap ps))
    (hsd : securityDictOf (Value.vmap sw) = Except.ok (Value.vmap sd))
    (hpc : (full_path, Value.vmap pc) ∈ ps)
    (hmc : (method, Value.vmap mcm) ∈ pc)
    (hsec : lookupKey mcm "security" = some (Value.vseq auths))
    (hauth : Value.vmap am ∈ auths)
    (hname : (name, v) ∈ am)
    (hmiss : lookupKey sd name = none) :
    get_routes resolve (Value.vmap sw) event_type = Except.error () := by
  have ha := @authorizersOf_error resolve sd mcm am auths name v hsec hauth hname hmiss
  have hpm : processMethod resolve (Value.vmap sd) event_type full_path method
      (Value.vmap mcm) = Except.error () := by
    rw [processMethod_char, ha, map_errE]
  have hrm := routesOfMethods_error hmc hpm
  have hrp := routesOfPaths_error hpc hrm
  rw [get_routes_eq hpaths hsd]
  exact hrp

/-- C1 witness: a concrete document whose only method entry references the
unknown scheme "miss"; the whole call fails. -/
theorem spec_C1_witness :
    get_routes (fun _ => none)
      (Value.vmap [("paths", Value.vmap [("/a", Value.vmap [("get",
        Value.vmap [("security", Value.vseq [Value.vmap [("miss", Value.vnull)]])])])])])
      "Api" = Except.error () :=
  spec_C1 (fun _ => none) "Api" rfl rfl (List.mem_singleton.mpr rfl)
    (List.mem_singleton.mpr rfl) rfl (List.mem_singleton.mpr rfl)
    (List.mem_singleton.mpr rfl) rfl

/-- C2 counterexample: a concrete method entry whose integration resolution
yields no function identifier, yet `get_routes` does not skip it non-fatally
— the entry's security-scheme lookups are performed first (lines 80–83
precede the `continue` at line 91), and a dangling scheme name aborts the
whole call instead of continuing with the remaining entries. -/
theorem spec_C2_counterexample :
    get_integration_function_name (fun _ => none)
        (Value.vmap [("security", Value.vseq [Value.vmap [("miss", Value.vnull)]])]) = none
    ∧ get_routes (fun _ => none)
        (Value.vmap [("paths", Value.vmap [("/b", Value.vmap [("get",
          Value.vmap [("security", Value.vseq [Value.vmap [("miss", Value.vnull)]])])])])])
        "Api" = Except.error () :=
  ⟨rfl, rfl⟩

/-- C2 (amended): a method entry whose integration resolution yields no
truthy function identifier emits no Route, and — provided its security
processing raises nothing — the entry is skipped non-fatally and the loop
continues with the remaining entries; however the entry's security sequence
is still processed first, so a failure there aborts the whole call. -/
theorem spec_C2_amended (resolve : Value → Option String) (sd : Value)
    (et fp m : String) (mc : Value) (rest : List (String × Value))
    (hfn : fnTruthy (get_integration_function_name resolve mc) = false) :
    (∀ auths, authorizersOf resolve sd mc = Except.ok auths →
      processMethod resolve sd et fp m mc = Except.ok []
      ∧ routesOfMethods resolve sd et fp ((m, mc) :: rest)
          = routesOfMethods resolve sd et fp rest)
    ∧ (authorizersOf resolve sd mc = Except.error () →
      processMethod resolve sd et fp m mc = Except.error ()) := by
  constructor
  · intro auths hok
    have hpm : processMethod resolve sd et fp m mc = Except.ok [] := by
      rw [processMethod_char, hok, map_okE, hfn]
      rfl
    refine ⟨hpm, ?_⟩
    cases hr : routesOfMethods resolve sd et fp rest with
    | error e =>
      cases e
      simp [routesOfMethods, hpm, hr, Bind.bind, Except.bind]
    | ok rs =>
      simp [routesOfMethods, hpm, hr, Bind.bind, Except.bind, Pure.pure, Except.pure]
  · intro herr
    rw [processMethod_char, herr, map_errE]

/-- C2 witness: a concrete entry with no integration and an empty security
sequence is skipped and the loop continues. -/
theorem spec_C2_amended_witness :
    processMethod (fun _ => none) (Value.vmap []) "Api" "/a" "get" (Value.vmap [])
      = Except.ok []
    ∧ routesOfMethods (fun _ => none) (Value.vmap []) "Api" "/a" [("get", Value.vmap [])]
      = routesOfMethods (fun _ => none) (Value.vmap []) "Api" "/a" [] :=
  (spec_C2_amended (fun _ => none) (Value.vmap []) "Api" "/a" "get"
    (Value.vmap []) [] rfl).1 [] rfl

/-- C3: a Route is emitted only for entries whose integration resolved to a
truthy (non-empty, non-`None`) function identifier — no returned Route
carries an empty identifier — and an entry whose resolution yields `None`
(in particular a qualifying proxy integration whose URI the resolver cannot
resolve) contributes no Route. -/
theorem spec_C3 (resolve : Value → Option String) (swagger : Value) (et : String) :
    (∀ rs, get_routes resolve swagger et = Except.ok rs →
      ∀ rt ∈ rs, rt.function_name ≠ "")
    ∧ (∀ sd fp m mc lr, get_integration_function_name resolve mc = none →
        processMethod resolve sd et fp m mc = Except.ok lr → lr = []) := by
  constructor
  · intro rs hok rt hrt
    obtain ⟨sd, fp, m, mc, lr, hpm, hin⟩ := get_routes_ok_mem hok hrt
    rcases processMethod_ok_elim hpm with ⟨hf, auths, _, rfl⟩ | ⟨_, rfl⟩
    · rcases List.mem_singleton.mp hin with rfl
      exact fnTruthy_getD_ne hf
    · cases hin
  · intro sd fp m mc lr hnone hpm
    rcases processMethod_ok_elim hpm with ⟨hf, _, _, _⟩ | ⟨_, rfl⟩
    · rw [hnone] at hf
      cases hf
    · rfl

/-- C3 witness: a one-route document; the returned route's identifier is the
non-empty resolver result. -/
theorem spec_C3_witness :
    ({ function_name := "Foo", path := "/a", methods := ["get"], event_type := "Api",
       payload_format_version := some Value.vnull, authorizers := [] } : Route).function_name
      ≠ "" :=
  (spec_C3 (fun _ => some "Foo")
    (Value.vmap [("paths", Value.vmap [("/a", Value.vmap [("get",
      Value.vmap [("x-amazon-apigateway-integration",
        Value.vmap [("type", Value.vstr "aws_proxy")])])])])])
    "Api").1
    [{ function_name := "Foo", path := "/a", methods := ["get"], event_type := "Api",
       payload_format_version := some Value.vnull, authorizers := [] }] rfl
    _ (List.mem_singleton.mpr rfl)

/-- C4: `_get_integration` yields an integration exactly when the method
config is a dict containing the integration vendor-extension key whose value
is a non-empty dict with `type` equal to the proxy tag; every other shape
yields `None` (the function is total — it never raises), and an entry with
no integration contributes no Route when the call survives. -/
theorem spec_C4 (resolve : Value → Option String) (mc : Value) :
    ((get_integration mc).isSome ↔
      ∃ m im, mc = Value.vmap m ∧
        lookupKey m INTEGRATION_KEY = some (Value.vmap im) ∧
        im ≠ [] ∧ lookupKey im "type" = some (Value.vstr AWS_PROXY_VALUE))
    ∧ (get_integration mc = none →
        ∀ sd et fp meth lr, processMethod resolve sd et fp meth mc = Except.ok lr →
          lr = []) := by
  constructor
  · constructor
    · intro hs
      cases mc with
      | vmap m =>
        cases hkey : lookupKey m INTEGRATION_KEY with
        | none => simp [get_integration, hkey] at hs
        | some integ =>
          cases integ with
          | vmap im =>
            by_cases hc : truthy (Value.vmap im) && pyEqStr (mapGet im "type") AWS_PROXY_VALUE
            · rw [Bool.and_eq_true] at hc
              refine ⟨m, im, rfl, hkey, ?_, pyEqStr_mapGet.mp hc.2⟩
              have := hc.1
              simp [truthy] at this
              exact this
            · simp [get_integration, hkey, hc] at hs
          | vnull => simp [get_integration, hkey] at hs
          | vbool b => simp [get_integration, hkey] at hs
          | vnum n => simp [get_integration, hkey] at hs
          | vstr s => simp [get_integration, hkey] at hs
          | vseq l => simp [get_integration, hkey] at hs
      | vnull => simp [get_integration] at hs
      | vbool b => simp [get_integration] at hs
      | vnum n => simp [get_integration] at hs
      | vstr s => simp [get_integration] at hs
      | vseq l => simp [get_integration] at hs
    · rintro ⟨m, im, rfl, hkey, hne, hty⟩
      have htr : truthy (Value.vmap im) = true := by
        simp [truthy]
        exact hne
      have hpe : pyEqStr (mapGet im "type") AWS_PROXY_VALUE = true := pyEqStr_mapGet.mpr hty
      simp [get_integration, hkey, htr, hpe]
  · intro hnone sd et fp meth lr hpm
    rcases processMethod_ok_elim hpm with ⟨hf, _, _, _⟩ | ⟨_, rfl⟩
    · rw [gifn_none hnone] at hf
      cases hf
    · rfl

/-- C4 witness: a method config whose integration has type `mock` yields no
integration, and the entry contributes no Route. -/
theorem spec_C4_witness :
    (get_integration (Value.vmap [("x-amazon-apigateway-integration",
        Value.vmap [("type", Value.vstr "mock")])])).isSome = false
    ∧ ([] : List Route) = [] :=
  ⟨rfl,
    (spec_C4 (fun _ => some "Foo")
      (Value.vmap [("x-amazon-apigateway-integration",
        Value.vmap [("type", Value.vstr "mock")])])).2 rfl
      (Value.vmap []) "Api" "/a" "get" [] rfl⟩

/-- C5: an entry whose method key lowercases to the any-method
vendor-extension key (which is itself lowercase, so this is case-insensitive
equality) is emitted with methods `["ANY"]`; every other emitted entry
carries its original method key as a singleton list. -/
theorem spec_C5 (resolve : Value → Option String) (sd : Value)
    (et fp meth : String) (mc : Value) (lr : List Route)
    (hok : processMethod resolve sd et fp meth mc = Except.ok lr) :
    (lowerStr meth = ANY_METHOD_EXTENSION_KEY → ∀ rt ∈ lr, rt.methods = [ANY_METHOD])
    ∧ (lowerStr meth ≠ ANY_METHOD_EXTENSION_KEY → ∀ rt ∈ lr, rt.methods = [meth]) := by
  rcases processMethod_ok_elim hok with ⟨_, auths, _, rfl⟩ | ⟨_, rfl⟩
  · constructor
    · intro hlow rt hin
      rcases List.mem_singleton.mp hin with rfl
      simp [emittedRoute, hlow]
    · intro hlow rt hin
      rcases List.mem_singleton.mp hin with rfl
      simp [emittedRoute, hlow]
  · exact ⟨fun _ rt hin => absurd hin (List.not_mem_nil rt),
      fun _ rt hin => absurd hin (List.not_mem_nil rt)⟩

/-- C5 witness: a mixed-case any-method key is emitted as `["ANY"]`. -/
theorem spec_C5_witness :
    ({ function_name := "Foo", path := "/a", methods := ["ANY"], event_type := "Api",
       payload_format_version := some Value.vnull, authorizers := [] } : Route).methods
      = ["ANY"] :=
  (spec_C5 (fun _ => some "Foo") (Value.vmap []) "Api" "/a"
    "x-amazon-apigateway-ANY-method"
    (Value.vmap [("x-amazon-apigateway-integration",
      Value.vmap [("type", Value.vstr "aws_proxy")])])
    [{ function_name := "Foo", path := "/a", methods := ["ANY"], event_type := "Api",
       payload_format_version := some Value.vnull, authorizers := [] }] rfl).1
    (by decide) _ (List.mem_singleton.mpr rfl)

/-- C6: when every referenced scheme exists, the `authorizers` value is one
mapping per entry of the method's `security` sequence, in the sequence's
order, each mapping sending the entry's scheme name(s) to the resolved
authorizer identifier — the entry is kept even when that identifier is
`None` — and every Route emitted for the entry carries exactly that value. -/
theorem spec_C6 (resolve : Value → Option String) (et fp meth : String)
    {sd mcm : List (String × Value)} {ams : List (List (String × Value))}
    (hsec : lookupKey mcm "security" = some (Value.vseq (ams.map Value.vmap)))
    (hk : ∀ am ∈ ams, ∀ p ∈ am, (lookupKey sd p.1).isSome) :
    authorizersOf resolve (Value.vmap sd) (Value.vmap mcm) =
      Except.ok (ams.map (fun am => am.map (fun p =>
        (p.1, get_authorizer_function_name resolve (mapGet sd p.1)))))
    ∧ ∀ lr, processMethod resolve (Value.vmap sd) et fp meth (Value.vmap mcm)
          = Except.ok lr →
        ∀ rt ∈ lr, rt.authorizers = ams.map (fun am => am.map (fun p =>
          (p.1, get_authorizer_function_name resolve (mapGet sd p.1)))) := by
  have ha := @authorizersOf_ok resolve sd mcm ams hsec hk
  refine ⟨ha, ?_⟩
  intro lr hpm rt hin
  rcases processMethod_ok_elim hpm with ⟨_, auths, hauths, rfl⟩ | ⟨_, rfl⟩
  · rcases List.mem_singleton.mp hin with rfl
    rw [ha] at hauths
    have : ams.map (fun am => am.map (fun p =>
        (p.1, get_authorizer_function_name resolve (mapGet sd p.1)))) = auths :=
      Except.ok.injEq _ _ |>.mp hauths
    simp [emittedRoute, this]
  · cases hin

/-- C6 witness: one security entry naming scheme `auth1`, whose token
authorizer resolves to `Foo`; the emitted route carries exactly that
one-entry authorizers list. -/
theorem spec_C6_witness :
    ({ function_name := "Foo", path := "/a", methods := ["get"], event_type := "Api",
       payload_format_version := some Value.vnull,
       authorizers := [[("auth1", some "Foo")]] } : Route).authorizers
      = [[("auth1", some "Foo")]] :=
  (@spec_C6 (fun _ => some "Foo") "Api" "/a" "get"
    [("auth1", Value.vmap [("x-amazon-apigateway-authorizer",
        Value.vmap [("type", Value.vstr "token")])])]
    [("x-amazon-apigateway-integration", Value.vmap [("type", Value.vstr "aws_proxy")]),
     ("security", Value.vseq [Value.vmap [("auth1", Value.vnull)]])]
    [[("auth1", Value.vnull)]]
    rfl (by decide)).2
    [{ function_name := "Foo", path := "/a", methods := ["get"], event_type := "Api",
       payload_format_version := some Value.vnull,
       authorizers := [[("auth1", some "Foo")]] }] rfl
    _ (List.mem_singleton.mpr rfl)

/-- C7: `_get_authorizer_function_name` yields an identifier only when the
scheme config is a dict containing the authorizer vendor-extension key whose
value is a non-empty dict of type token or request — and the identifier is
then the resolver's result on the `authorizerUri` field; every other shape
yields `None` (the function is total — it never raises). -/
theorem spec_C7 (resolve : Value → Option String) (sc : Value) :
    ((get_authorizer_function_name resolve sc).isSome →
      ∃ m am, sc = Value.vmap m ∧
        lookupKey m AUTHORIZER_KEY = some (Value.vmap am) ∧ am ≠ [] ∧
        (lookupKey am "type" = some (Value.vstr TOKEN_VALUE) ∨
          lookupKey am "type" = some (Value.vstr REQUEST_VALUE)))
    ∧ (∀ m am, sc = Value.vmap m →
        lookupKey m AUTHORIZER_KEY = some (Value.vmap am) → am ≠ [] →
        (lookupKey am "type" = some (Value.vstr TOKEN_VALUE) ∨
          lookupKey am "type" = some (Value.vstr REQUEST_VALUE)) →
        get_authorizer_function_name resolve sc = resolve (mapGet am "authorizerUri"))
    ∧ (¬(∃ m am, sc = Value.vmap m ∧
          lookupKey m AUTHORIZER_KEY = some (Value.vmap am) ∧ am ≠ [] ∧
          (lookupKey am "type" = some (Value.vstr TOKEN_VALUE) ∨
            lookupKey am "type" = some (Value.vstr REQUEST_VALUE))) →
        get_authorizer_function_name resolve sc = none) := by
  have hcond : ∀ am : List (String × Value),
      (truthy (Value.vmap am) &&
        (pyEqStr (mapGet am "type") TOKEN_VALUE
          || pyEqStr (mapGet am "type") REQUEST_VALUE)) = true ↔
      am ≠ [] ∧ (lookupKey am "type" = some (Value.vstr TOKEN_VALUE) ∨
        lookupKey am "type" = some (Value.vstr REQUEST_VALUE)) := by
    intro am
    rw [Bool.and_eq_true, Bool.or_eq_true]
    constructor
    · rintro ⟨h1, h2⟩
      refine ⟨?_, ?_⟩
      · simp [truthy] at h1
        exact h1
      · rcases h2 with h2 | h2
        · exact Or.inl (pyEqStr_mapGet.mp h2)
        · exact Or.inr (pyEqStr_mapGet.mp h2)
    · rintro ⟨h1, h2⟩
      refine ⟨?_, ?_⟩
      · simp [truthy]
        exact h1
      · rcases h2 with h2 | h2
        · exact Or.inl (pyEqStr_mapGet.mpr h2)
        · exact Or.inr (pyEqStr_mapGet.mpr h2)
  have hshape : ∀ m am, lookupKey m AUTHORIZER_KEY = some (Value.vmap am) →
      am ≠ [] →
      (lookupKey am "type" = some (Value.vstr TOKEN_VALUE) ∨
        lookupKey am "type" = some (Value.vstr REQUEST_VALUE)) →
      get_authorizer_function_name resolve (Value.vmap m)
        = resolve (mapGet am "authorizerUri") := by
    intro m am hkey hne hty
    have hc := (hcond am).mpr ⟨hne, hty⟩
    simp [get_authorizer_function_name, hkey, hc]
  have hsome : (get_authorizer_function_name resolve sc).isSome →
      ∃ m am, sc = Value.vmap m ∧
        lookupKey m AUTHORIZER_KEY = some (Value.vmap am) ∧ am ≠ [] ∧
        (lookupKey am "type" = some (Value.vstr TOKEN_VALUE) ∨
          lookupKey am "type" = some (Value.vstr REQUEST_VALUE)) := by
    intro hs
    cases sc with
    | vmap m =>
      cases hkey : lookupKey m AUTHORIZER_KEY with
      | none => simp [get_authorizer_function_name, hkey] at hs
      | some authorizer =>
        cases authorizer with
        | vmap am =>
          by_cases hc : truthy (Value.vmap am) &&
              (pyEqStr (mapGet am "type") TOKEN_VALUE
                || pyEqStr (mapGet am "type") REQUEST_VALUE)
          · obtain ⟨hne, hty⟩ := (hcond am).mp hc
            exact ⟨m, am, rfl, hkey, hne, hty⟩
          · simp [get_authorizer_function_name, hkey, hc] at hs
        | vnull => simp [get_authorizer_function_name, hkey] at hs
        | vbool b => simp [get_authorizer_function_name, hkey] at hs
        | vnum n => simp [get_authorizer_function_name, hkey] at hs
        | vstr s => simp [get_authorizer_function_name, hkey] at hs
        | vseq l => simp [get_authorizer_function_name, hkey] at hs
    | vnull => simp [get_authorizer_function_name] at hs
    | vbool b => simp [get_authorizer_function_name] at hs
    | vnum n => simp [get_authorizer_function_name] at hs
    | vstr s => simp [get_authorizer_function_name] at hs
    | vseq l => simp [get_authorizer_function_name] at hs
  refine ⟨hsome, fun m am hsc => hsc ▸ hshape m am, ?_⟩
  intro hns
  by_cases hs : (get_authorizer_function_name resolve sc).isSome
  · exact absurd (hsome hs) hns
  · exact Option.not_isSome_iff_eq_none.mp hs

/-- C7 witness: a token authorizer with an `authorizerUri`; the resolved
identifier is the resolver's result on that field. -/
theorem spec_C7_witness :
    get_authorizer_function_name (fun _ => some "Foo")
      (Value.vmap [("x-amazon-apigateway-authorizer",
        Value.vmap [("type", Value.vstr "token"), ("authorizerUri", Value.vstr "arn")])])
      = (fun _ => some "Foo")
          (mapGet [("type", Value.vstr "token"), ("authorizerUri", Value.vstr "arn")]
            "authorizerUri") :=
  (spec_C7 (fun _ => some "Foo")
    (Value.vmap [("x-amazon-apigateway-authorizer",
      Value.vmap [("type", Value.vstr "token"),
        ("authorizerUri", Value.vstr "arn")])])).2.1
    [("x-amazon-apigateway-authorizer",
      Value.vmap [("type", Value.vstr "token"), ("authorizerUri", Value.vstr "arn")])]
    [("type", Value.vstr "token"), ("authorizerUri", Value.vstr "arn")]
    rfl rfl (List.cons_ne_nil _ _) (Or.inl rfl)

/-- C8: a document (a dict, with `components` absent or a dict, as the data
model requires) whose root has no `paths` key makes `get_routes` return the
empty list without error; an absent `components` or an absent
`components.securitySchemes` is treated as the empty securitySchemes dict. -/
theorem spec_C8 (resolve : Value → Option String) (et : String)
    {sw : List (String × Value)}
    (hpaths : lookupKey sw "paths" = none)
    (hcomp : lookupKey sw "components" = none ∨
      ∃ cs, lookupKey sw "components" = some (Value.vmap cs)) :
    get_routes resolve (Value.vmap sw) et = Except.ok []
    ∧ (lookupKey sw "components" = none →
        securityDictOf (Value.vmap sw) = Except.ok (Value.vmap []))
    ∧ (∀ cs, lookupKey sw "components" = some (Value.vmap cs) →
        lookupKey cs "securitySchemes" = none →
        securityDictOf (Value.vmap sw) = Except.ok (Value.vmap [])) := by
  have hsd : ∃ sdv, securityDictOf (Value.vmap sw) = Except.ok sdv := by
    rcases hcomp with hc | ⟨cs, hc⟩
    · exact ⟨Value.vmap [], by simp [securityDictOf, dictGetD, hc, bind_okE, lookupKey]⟩
    · exact ⟨(lookupKey cs "securitySchemes").getD (Value.vmap []),
        by simp [securityDictOf, dictGetD, hc, bind_okE]⟩
  obtain ⟨sdv, hsdv⟩ := hsd
  refine ⟨?_, ?_, ?_⟩
  · simp only [get_routes, dictGetD, hpaths, Option.getD_none, bind_okE, hsdv,
      pyItems, routesOfPaths]
  · intro hc
    simp [securityDictOf, dictGetD, hc, bind_okE, lookupKey]
  · intro cs hc hss
    simp [securityDictOf, dictGetD, hc, hss, bind_okE]

/-- C8 witness: the empty document yields no routes and the empty
securitySchemes dict. -/
theorem spec_C8_witness :
    get_routes (fun _ => none) (Value.vmap []) "Api" = Except.ok []
    ∧ securityDictOf (Value.vmap []) = Except.ok (Value.vmap []) :=
  ⟨(@spec_C8 (fun _ => none) "Api" [] rfl (Or.inl rfl)).1,
    (@spec_C8 (fun _ => none) "Api" [] rfl (Or.inl rfl)).2.1 rfl⟩

/-- C9 counterexample: a document whose binary-media-types key holds the
falsy value `False` — not absent, not null, not the empty list — yet
`get_binary_media_types` returns `[]` rather than the held value unchanged,
refuting the claim's "otherwise returns the held value unchanged". -/
theorem spec_C9_counterexample :
    get_binary_media_types
        (Value.vmap [("x-amazon-apigateway-binary-media-types", Value.vbool false)])
      = Except.ok (Value.vseq [])
    ∧ (Value.vseq [] = Value.vbool false → False) :=
  ⟨rfl, fun h => nomatch h⟩

/-- C9 (amended): `get_binary_media_types` returns `[]` when the key is
absent or holds any falsy value (null, empty list, `False`, `0`, empty
string); it returns the held value unchanged exactly when it is truthy. -/
theorem spec_C9_amended (m : List (String × Value)) :
    ((lookupKey m BINARY_MEDIA_TYPES_EXTENSION_KEY = none ∨
      (∃ v, lookupKey m BINARY_MEDIA_TYPES_EXTENSION_KEY = some v ∧ truthy v = false)) →
      get_binary_media_types (Value.vmap m) = Except.ok (Value.vseq []))
    ∧ (∀ v, lookupKey m BINARY_MEDIA_TYPES_EXTENSION_KEY = some v → truthy v = true →
        get_binary_media_types (Value.vmap m) = Except.ok v) := by
  constructor
  · rintro (h | ⟨v, h, hv⟩)
    · simp [get_binary_media_types, dictGetD, h, bind_okE, truthy]
    · simp [get_binary_media_types, dictGetD, h, bind_okE, hv]
  · intro v h hv
    simp [get_binary_media_types, dictGetD, h, bind_okE, hv]

/-- C9 witness: an absent key yields `[]`; a non-empty held list is returned
unchanged. -/
theorem spec_C9_amended_witness :
    get_binary_media_types (Value.vmap []) = Except.ok (Value.vseq [])
    ∧ get_binary_media_types
        (Value.vmap [("x-amazon-apigateway-binary-media-types",
          Value.vseq [Value.vstr "image/png"])])
      = Except.ok (Value.vseq [Value.vstr "image/png"]) :=
  ⟨(spec_C9_amended []).1 (Or.inl rfl),
    (spec_C9_amended [("x-amazon-apigateway-binary-media-types",
        Value.vseq [Value.vstr "image/png"])]).2
      (Value.vseq [Value.vstr "image/png"]) rfl rfl⟩

/-- C10: a falsy constructor argument (`None`, `{}`, …) makes the parser
hold the same document as an empty one (`swagger or {}`), so `get_routes`
and `get_binary_media_types` both return empty results without error. -/
theorem spec_C10 (resolve : Value → Option String) (et : String) (sw : Value)
    (hf : truthy sw = false) :
    mkSwagger sw = mkSwagger (Value.vmap [])
    ∧ get_routes resolve (mkSwagger sw) et = Except.ok []
    ∧ get_binary_media_types (mkSwagger sw) = Except.ok (Value.vseq []) := by
  have h1 : mkSwagger sw = Value.vmap [] := by
    simp [mkSwagger, hf]
  rw [h1]
  exact ⟨rfl, rfl, rfl⟩

/-- C10 witness: constructing with `None` behaves as the empty document. -/
theorem spec_C10_witness :
    mkSwagger Value.vnull = mkSwagger (Value.vmap [])
    ∧ get_routes (fun _ => none) (mkSwagger Value.vnull) "Api" = Except.ok []
    ∧ get_binary_media_types (mkSwagger Value.vnull) = Except.ok (Value.vseq []) :=
  spec_C10 (fun _ => none) "Api" Value.vnull rfl
